import Mathlib

/-!
Verification of the multi-currency double-entry ledger posting engine of the
Mahuderp repository (accounting/utils and reports/views).

Amounts are modelled as exact rationals; Python `Decimal.quantize` /
`round(x, 2)` (both ROUND_HALF_EVEN) are modelled by `quantize`.  Dates are
modelled as integers (day numbers), currencies and account codes as strings.
The Django ORM tables are modelled as lists in insertion order; a filtered
query ordered by `-rate_date` taking the first row is modelled by
`latestByDate` (maximum by date, first row winning ties, matching a stable
descending sort).  Exceptions are modelled by `Except`; every stateful
operation returns the (possibly updated) database next to its result, and
`transaction.atomic` is modelled by `atomic`, which restores the incoming
database when the wrapped computation fails.
-/

namespace Mahuderp

/-- Round a rational to the nearest integer, ties to even
(Python `Decimal`'s default ROUND_HALF_EVEN). -/
def roundHalfEven (q : ℚ) : ℤ :=
  if q - ⌊q⌋ < 1/2 then ⌊q⌋
  else if 1/2 < q - ⌊q⌋ then ⌊q⌋ + 1
  else if ⌊q⌋ % 2 = 0 then ⌊q⌋ else ⌊q⌋ + 1

/-- Round to `dp` decimal places, half to even: Python's
`Decimal.quantize(Decimal('0.01'))` for `dp = 2`, `quantize(Decimal('0.0001'))`
for `dp = 4`, and `round(x, dp)` on a `Decimal`. -/
def quantize (dp : ℕ) (q : ℚ) : ℚ :=
  (roundHalfEven (q * (10 : ℚ) ^ dp) : ℚ) / (10 : ℚ) ^ dp

/-- One row of the FxRate table: a dated directional exchange rate
(`rate` converts `fromCurrency` units to `toCurrency` units by
multiplication).

Modelled from the spec: the `FxRate` model class itself is not under `src/`
(only its importers are); §3 of the spec gives its attributes
`from_currency`, `to_currency`, `rate_date`, `rate`. -/
structure FxRate where
  fromCurrency : String
  toCurrency : String
  rateDate : ℤ
  rate : ℚ
deriving Repr, DecidableEq

/-- Keep the row with the larger `rate_date`; on a tie keep the earlier row. -/
def laterRate (b x : FxRate) : FxRate :=
  if b.rateDate < x.rateDate then x else b

/-- `rows.order_by('-rate_date').first()`: the row with the maximal
`rate_date`, the first such row winning ties (a stable descending sort
followed by `first`). -/
def latestByDate : List FxRate → Option FxRate
  | [] => none
  | r :: rs => some (rs.foldl laterRate r)

/-- The errors the posting engine can raise.  `unbalanced` and
`missingFxRate` are `ValidationError`s ("Journal unbalanced: ..." and
"No FX rate found: ..."), `multipleFxRates` is Django's
`MultipleObjectsReturned`, `candidateNotFound` is `Candidate.DoesNotExist`,
`noneAttr` is the `AttributeError` raised by attribute access on `None`. -/
inductive LedgerError where
  | unbalanced
  | missingFxRate
  | multipleFxRates
  | candidateNotFound
  | noneAttr
deriving Repr, DecidableEq

/-- `get_fx_rate(from_currency, to_currency, date)` of `core/utils.py`:
identity pairs get rate 1; otherwise an exact-date `.get` is tried, and on
`FxRate.DoesNotExist` the latest available rate for the pair — of any date —
is used; if the pair has no rate at all a `ValidationError` is raised. -/
def get_fx_rate (rates : List FxRate) (fromCurrency toCurrency : String)
    (date : ℤ) : Except LedgerError ℚ :=
  if fromCurrency = toCurrency then .ok 1
  else
    match rates.filter fun r =>
        r.fromCurrency = fromCurrency ∧ r.toCurrency = toCurrency ∧
        r.rateDate = date with
    | [r] => .ok r.rate
    | [] =>
      match latestByDate (rates.filter fun r =>
          r.fromCurrency = fromCurrency ∧ r.toCurrency = toCurrency) with
      | some r => .ok r.rate
      | none => .error .missingFxRate
    | _ => .error .multipleFxRates

/-- `convert_currency(amount, from_curr, to_curr, date)` of `core/utils.py`
(the strict-mode converter used for ledger posting): multiply by the looked-up
rate and quantize to 4 decimal places. -/
def convert_currency (rates : List FxRate) (amount : ℚ)
    (fromCurr toCurr : String) (date : ℤ) : Except LedgerError ℚ :=
  match get_fx_rate rates fromCurr toCurr date with
  | .error e => .error e
  | .ok rate => .ok (quantize 4 (amount * rate))

/-- The most recent rate for the directional pair dated on or before `date`
(`filter(from_currency=f, to_currency=t, rate_date__lte=date)
.order_by('-rate_date').first()`). -/
def latestOnOrBefore (rates : List FxRate) (fromCurrency toCurrency : String)
    (date : ℤ) : Option FxRate :=
  latestByDate (rates.filter fun r =>
    r.fromCurrency = fromCurrency ∧ r.toCurrency = toCurrency ∧
    r.rateDate ≤ date)

namespace Reports

/-- `convert_currency` of `reports/views.py` (the lenient reporting
converter): zero amounts and identity pairs are returned rounded to 2
decimals with no lookup; otherwise the most recent direct rate on or before
the date is multiplied, failing that the most recent reverse rate on or
before the date is divided, failing that the unconverted amount is returned;
all results rounded to 2 decimals.  A zero reverse rate makes the division
raise `DivisionByZero`, which the bare `except` turns into the unconverted
fallback. -/
def convert_currency (rates : List FxRate) (amount : ℚ)
    (fromCurrency toCurrency : String) (date : ℤ) : ℚ :=
  if amount = 0 ∨ fromCurrency = toCurrency then quantize 2 amount
  else
    match latestOnOrBefore rates fromCurrency toCurrency date with
    | some r => quantize 2 (amount * r.rate)
    | none =>
      match latestOnOrBefore rates toCurrency fromCurrency date with
      | some r =>
        if r.rate = 0 then quantize 2 amount else quantize 2 (amount / r.rate)
      | none => quantize 2 amount

end Reports

/-- The per-company chart of accounts.

Modelled from the spec: the `Company` model class under `src/` lacks the
`chart_of_accounts` relation the posting code dereferences; §6 of the spec
treats it as static per-company configuration providing named account codes
(WIP, Accounts Payable/Receivable, Revenue, COGS, Tax Payable,
FX Gain/Loss). -/
structure ChartOfAccounts where
  wip_account : String
  accounts_payable : String
  accounts_receivable : String
  revenue_account : String
  cogs_account : String
  tax_payable : String
  fx_gain : String
  fx_loss : String
deriving Repr, DecidableEq

/-- A company (country subsidiary): the fields the posting engine reads. -/
structure Company where
  code : String
  base_currency : String
  chart_of_accounts : ChartOfAccounts
deriving Repr, DecidableEq

/-- A `CandidateCost` row: the fields the posting engine reads.
`costTypeDisplay` stands for `get_cost_type_display()` and `vendorName` for
`vendor.name` of the optional vendor. -/
structure CandidateCost where
  candidateId : ℕ
  amount : ℚ
  currency : String
  date_incurred : ℤ
  costTypeDisplay : String
  vendorName : Option String
deriving Repr, DecidableEq

/-- A job order: owning company, agreed placement fee and its currency. -/
structure JobOrder where
  company : Company
  agreed_fee : ℚ
  currency : String
deriving Repr, DecidableEq

/-- A candidate; `costs` is the related set `candidate.costs.all()`. -/
structure Candidate where
  id : ℕ
  full_name : String
  passport_number : String
  current_stage : String
  deployed_date : Option ℤ
  job_order : JobOrder
  costs : List CandidateCost
deriving Repr, DecidableEq

/-- An invoice: the fields `post_invoice_journal` reads. -/
structure Invoice where
  company : Company
  invoice_number : String
  currency : String
  total_amount : ℚ
  tax_amount : ℚ
deriving Repr, DecidableEq

/-- A receipt: the fields `post_receipt_journal` reads.  `invoice` is the
nullable foreign key; `bankAccount` and `reference` are the account code and
reference string the function dereferences. -/
structure Receipt where
  company : Company
  amount : ℚ
  currency : String
  invoice : Option Invoice
  bankAccount : String
  reference : String
deriving Repr, DecidableEq

/-- One journal line: account code, debit, credit, description. -/
structure JournalLine where
  account : String
  debit : ℚ
  credit : ℚ
  description : String
deriving Repr, DecidableEq

/-- One journal: the company it belongs to, its description and its lines in
creation order. -/
structure Journal where
  company : String
  description : String
  lines : List JournalLine
deriving Repr, DecidableEq

/-- The database: FX rates, candidates, candidate costs and journals, each in
insertion order. -/
structure Db where
  fxRates : List FxRate
  candidates : List Candidate
  candidateCosts : List CandidateCost
  journals : List Journal
deriving Repr, DecidableEq

/-- `transaction.atomic`: on failure the incoming database is restored. -/
def atomic {α : Type} (f : Db → Except LedgerError α × Db) (db : Db) :
    Except LedgerError α × Db :=
  match f db with
  | (.error e, _) => (.error e, db)
  | ok => ok

/-- Total debit of a list of lines. -/
def totalDebit (lines : List JournalLine) : ℚ := (lines.map (·.debit)).sum

/-- Total credit of a list of lines. -/
def totalCredit (lines : List JournalLine) : ℚ := (lines.map (·.credit)).sum

/-- `post_journal(company, description, lines, posted_by)` of
`core/utils.py`: raise `ValidationError` when the absolute debit/credit
difference exceeds 0.01; otherwise create one `Journal` row and one
`JournalLine` row per input line, in input order, and return the journal.
The balance check precedes every write. -/
def post_journal (db : Db) (company : Company) (description : String)
    (lines : List JournalLine) : Except LedgerError Journal × Db :=
  if 1/100 < |totalDebit lines - totalCredit lines| then
    (.error .unbalanced, db)
  else
    let journal : Journal := ⟨company.code, description, lines⟩
    (.ok journal, { db with journals := db.journals ++ [journal] })

/-- `post_wip_cost_journal(cost)` of `core/utils.py` (with `candidate`
standing for `cost.candidate`): convert the cost to the company base
currency at the incurred date in strict mode, then post
DR WIP / CR Accounts Payable. -/
def post_wip_cost_journal (db : Db) (candidate : Candidate)
    (cost : CandidateCost) : Except LedgerError Journal × Db :=
  atomic (fun db =>
    let company := candidate.job_order.company
    match convert_currency db.fxRates cost.amount cost.currency
        company.base_currency cost.date_incurred with
    | .error e => (.error e, db)
    | .ok local_amount =>
      post_journal db company
        ("Candidate Cost: " ++ candidate.passport_number ++ " - " ++
          cost.costTypeDisplay)
        [⟨company.chart_of_accounts.wip_account, local_amount, 0,
          "WIP - " ++ cost.costTypeDisplay ++ " - " ++ candidate.full_name⟩,
         ⟨company.chart_of_accounts.accounts_payable, 0, local_amount,
          "AP - " ++ cost.vendorName.getD ("Vendor")⟩]) db

/-- The `total_wip` accumulation loop of `post_deployment_journal`: convert
each cost to the base currency at its incurred date (strict mode) and sum. -/
def sumWip (rates : List FxRate) (base : String) (acc : ℚ) :
    List CandidateCost → Except LedgerError ℚ
  | [] => .ok acc
  | cost :: rest =>
    match convert_currency rates cost.amount cost.currency base
        cost.date_incurred with
    | .error e => .error e
    | .ok localAmount => sumWip rates base (acc + localAmount) rest

/-- `post_deployment_journal(candidate)` of `core/utils.py`: `None` unless
the candidate is in stage DEPLOYED; otherwise post the four-line revenue
recognition journal DR COGS / CR WIP / CR Revenue / DR Accounts Receivable.
`today` models `timezone.now().date()`, the date the fee conversion defaults
to. -/
def post_deployment_journal (db : Db) (today : ℤ) (candidate : Candidate) :
    Except LedgerError (Option Journal) × Db :=
  atomic (fun db =>
    if candidate.current_stage ≠ "DEPLOYED" then (.ok none, db)
    else
      let company := candidate.job_order.company
      match sumWip db.fxRates company.base_currency 0 candidate.costs with
      | .error e => (.error e, db)
      | .ok total_wip =>
        match convert_currency db.fxRates candidate.job_order.agreed_fee
            candidate.job_order.currency company.base_currency today with
        | .error e => (.error e, db)
        | .ok revenue_local =>
          match post_journal db company
              ("Deployment Revenue Recognition - " ++ candidate.full_name)
              [⟨company.chart_of_accounts.cogs_account, total_wip, 0,
                "COGS - Deployment " ++ candidate.full_name⟩,
               ⟨company.chart_of_accounts.wip_account, 0, total_wip,
                "WIP Cleared - " ++ candidate.passport_number⟩,
               ⟨company.chart_of_accounts.revenue_account, 0, revenue_local,
                "Revenue - Placement " ++ candidate.full_name⟩,
               ⟨company.chart_of_accounts.accounts_receivable, revenue_local,
                0, "AR - Placement Fee " ++ candidate.passport_number⟩] with
          | (.error e, db) => (.error e, db)
          | (.ok journal, db) => (.ok (some journal), db)) db

/-- `post_invoice_journal(invoice)` of `core/utils.py`: convert total and tax
to the base currency (strict mode, date defaulting to today), then post
DR Accounts Receivable (total) / CR Revenue (total − tax), appending a
CR Tax Payable line exactly when the converted tax is positive. -/
def post_invoice_journal (db : Db) (today : ℤ) (invoice : Invoice) :
    Except LedgerError Journal × Db :=
  atomic (fun db =>
    let company := invoice.company
    match convert_currency db.fxRates invoice.total_amount invoice.currency
        company.base_currency today with
    | .error e => (.error e, db)
    | .ok total_local =>
      match convert_currency db.fxRates invoice.tax_amount invoice.currency
          company.base_currency today with
      | .error e => (.error e, db)
      | .ok tax_local =>
        let net_local := total_local - tax_local
        post_journal db company
          ("Invoice Posted: " ++ invoice.invoice_number)
          ([⟨company.chart_of_accounts.accounts_receivable, total_local, 0,
             "Invoice " ++ invoice.invoice_number⟩,
            ⟨company.chart_of_accounts.revenue_account, 0, net_local,
             "Invoice " ++ invoice.invoice_number ++ " - Service"⟩] ++
           (if 0 < tax_local then
              [⟨company.chart_of_accounts.tax_payable, 0, tax_local,
                "VAT/GST Output Tax - " ++ invoice.invoice_number⟩]
            else []))) db

/-- `post_receipt_journal(receipt)` of `core/utils.py`: convert the received
amount, take the linked invoice's total (falling back to the receipt amount
when no invoice is linked), then unconditionally dereference
`receipt.invoice.currency` — an `AttributeError` when `invoice` is `None` —
to convert the original AR amount; post DR Bank / CR Accounts Receivable,
appending an FX gain/loss plug line when the residual exceeds 0.01 in
absolute value: the residual on the debit side when positive, its absolute
value on the credit side when negative. -/
def post_receipt_journal (db : Db) (today : ℤ) (receipt : Receipt) :
    Except LedgerError Journal × Db :=
  let company := receipt.company
  match convert_currency db.fxRates receipt.amount receipt.currency
      company.base_currency today with
  | .error e => (.error e, db)
  | .ok amount_local =>
    let original_ar :=
      match receipt.invoice with
      | some invoice => invoice.total_amount
      | none => receipt.amount
    match receipt.invoice with
    | none => (.error .noneAttr, db)
    | some invoice =>
      match convert_currency db.fxRates original_ar invoice.currency
          company.base_currency today with
      | .error e => (.error e, db)
      | .ok original_local =>
        let fx_gain_loss := amount_local - original_local
        post_journal db company ("Receipt: " ++ receipt.reference)
          ([⟨receipt.bankAccount, amount_local, 0,
             "Payment received - " ++ receipt.reference⟩,
            ⟨company.chart_of_accounts.accounts_receivable, 0, original_local,
             "AR Cleared - " ++ invoice.invoice_number⟩] ++
           (if 1/100 < |fx_gain_loss| then
              [⟨(if 0 < fx_gain_loss then company.chart_of_accounts.fx_gain
                 else company.chart_of_accounts.fx_loss),
                (if 0 < fx_gain_loss then fx_gain_loss else 0),
                (if fx_gain_loss < 0 then |fx_gain_loss| else 0),
                "FX Gain/Loss on receipt"⟩]
            else []))

/-- The `{"updated": ..., "total": ...}` summary of `bulk_move_stage`. -/
structure MoveStageResult where
  updated : ℕ
  total : ℕ
deriving Repr, DecidableEq

/-- Overwrite the candidate row with the given id (`candidate.save()`). -/
def saveCandidate (db : Db) (candidate : Candidate) : Db :=
  { db with candidates :=
      db.candidates.map fun c => if c.id = candidate.id then candidate else c }

/-- The in-place stage update of one `bulk_move_stage` iteration:
`candidate.current_stage = new_stage`, and `deployed_date` is set to today
on a transition into DEPLOYED when not already set. -/
def movedCandidate (today : ℤ) (newStage : String)
    (candidate : Candidate) : Candidate :=
  { candidate with
    current_stage := newStage,
    deployed_date :=
      if newStage = "DEPLOYED" ∧ candidate.deployed_date = none then
        some today
      else candidate.deployed_date }

/-- The loop body of `bulk_move_stage`, one iteration per fetched candidate:
record the old stage, update stage (setting `deployed_date` on a first
transition into DEPLOYED), save, and — only on an old≠DEPLOYED,
new=DEPLOYED transition — post the deployment journal, counting it.
A posting failure propagates out of the loop. -/
def bulkMoveStageGo (today : ℤ) (newStage : String) :
    Db → List Candidate → ℕ → Except LedgerError ℕ × Db
  | db, [], updated => (.ok updated, db)
  | db, candidate :: rest, updated =>
    let oldStage := candidate.current_stage
    let candidate' := movedCandidate today newStage candidate
    let db1 := saveCandidate db candidate'
    if newStage = "DEPLOYED" ∧ oldStage ≠ "DEPLOYED" then
      match post_deployment_journal db1 today candidate' with
      | (.error e, db2) => (.error e, db2)
      | (.ok _, db2) => bulkMoveStageGo today newStage db2 rest (updated + 1)
    else bulkMoveStageGo today newStage db1 rest updated

/-- `bulk_move_stage(candidate_ids, new_stage, user)` of `core/utils.py`:
fetch the candidates whose ids are in the list (ids matching no row are
silently dropped by the `filter`), run the per-candidate loop inside one
`transaction.atomic`, and return `{"updated": ..., "total": len(ids)}`. -/
def bulk_move_stage (db : Db) (today : ℤ) (candidate_ids : List ℕ)
    (new_stage : String) : Except LedgerError MoveStageResult × Db :=
  atomic (fun db =>
    let fetched := db.candidates.filter fun c => candidate_ids.contains c.id
    match bulkMoveStageGo today new_stage db fetched 0 with
    | (.error e, db) => (.error e, db)
    | (.ok updated, db) => (.ok ⟨updated, candidate_ids.length⟩, db)) db

/-- The cost template of `bulk_add_cost` (`cost_data` without the candidate
id, which the loop fills in). -/
structure CostTemplate where
  amount : ℚ
  currency : String
  date_incurred : ℤ
  costTypeDisplay : String
  vendorName : Option String
deriving Repr, DecidableEq

/-- Instantiate the template for one candidate
(`cost_data['candidate'] = candidate.id; CandidateCost.objects.create(...)`). -/
def mkCost (template : CostTemplate) (candidateId : ℕ) : CandidateCost :=
  ⟨candidateId, template.amount, template.currency, template.date_incurred,
   template.costTypeDisplay, template.vendorName⟩

/-- The loop body of `bulk_add_cost`, one iteration per id:
`Candidate.objects.get(id=...)` raises `Candidate.DoesNotExist` for an
unknown id; otherwise a `CandidateCost` row is created and its WIP journal
posted.  Any failure propagates out of the loop uncaught. -/
def bulkAddCostGo (template : CostTemplate) :
    Db → List ℕ → ℕ → Except LedgerError ℕ × Db
  | db, [], created => (.ok created, db)
  | db, candidateId :: rest, created =>
    match db.candidates.find? fun c => c.id = candidateId with
    | none => (.error .candidateNotFound, db)
    | some candidate =>
      let cost := mkCost template candidate.id
      let db1 := { db with candidateCosts := db.candidateCosts ++ [cost] }
      match post_wip_cost_journal db1 candidate cost with
      | (.error e, db2) => (.error e, db2)
      | (.ok _, db2) => bulkAddCostGo template db2 rest (created + 1)

/-- `bulk_add_cost(candidate_ids, cost_data, user)` of `core/utils.py`: run
the per-id loop inside one `transaction.atomic` (so a propagated failure
rolls back every sibling item's writes) and return `{"created": ...}`. -/
def bulk_add_cost (db : Db) (candidate_ids : List ℕ)
    (template : CostTemplate) : Except LedgerError ℕ × Db :=
  atomic (fun db => bulkAddCostGo template db candidate_ids 0) db

/-! Concrete instances used by witnesses and counterexamples. -/

/-- A chart of accounts with distinct account codes. -/
def chart0 : ChartOfAccounts :=
  ⟨"WIP", "AP", "AR", "REV", "COGS", "TAX", "FXG", "FXL"⟩

/-- A USD-base company. -/
def company0 : Company := ⟨"CO", "USD", chart0⟩

/-- A job order of `company0` with a 500 USD agreed fee. -/
def job0 : JobOrder := ⟨company0, 500, "USD"⟩

/-- An empty database. -/
def db0 : Db := ⟨[], [], [], []⟩

/-- A 50 USD medical cost of candidate 1. -/
def costMedical : CandidateCost := ⟨1, 50, "USD", 0, "Medical", none⟩

/-- A candidate in stage TICKET carrying `costMedical`. -/
def candTicket : Candidate := ⟨1, "Asha", "P1", "TICKET", none, job0, [costMedical]⟩

/-- A database holding only `candTicket`. -/
def dbDeploy : Db := ⟨[], [candTicket], [], []⟩

/-- Two cost-free candidates in stage SOURCING, ids 1 and 2. -/
def candA : Candidate := ⟨1, "Asha", "P1", "SOURCING", none, job0, []⟩

/-- Second candidate, id 2. -/
def candB : Candidate := ⟨2, "Brij", "P2", "SOURCING", none, job0, []⟩

/-- A database holding exactly candidates 1 and 2 and nothing else. -/
def dbTwoCandidates : Db := ⟨[], [candA, candB], [], []⟩

/-- A 50 USD cost template. -/
def template0 : CostTemplate := ⟨50, "USD", 0, "Medical", none⟩

/-- A 1000 USD invoice with 180 USD tax on `company0` (the spec's scenario). -/
def invoice1000 : Invoice := ⟨company0, "INV-1", "USD", 1000, 180⟩

/-- A 100 USD invoice with no tax. -/
def invoice100 : Invoice := ⟨company0, "INV-2", "USD", 100, 0⟩

/-- A 110 USD receipt against `invoice100`: its FX residual is 10. -/
def receiptOver : Receipt := ⟨company0, 110, "USD", some invoice100, "BANK", "R1"⟩

/-- A receipt with no linked invoice. -/
def receiptNoInvoice : Receipt := ⟨company0, 50, "USD", none, "BANK", "R2"⟩

/-- A balanced pair of journal lines. -/
def lines0 : List JournalLine := [⟨"A1", 5, 0, "d1"⟩, ⟨"A2", 0, 5, "d2"⟩]

/-- A EUR→USD rate dated 20 with value 2. -/
def rateFuture : FxRate := ⟨"EUR", "USD", 20, 2⟩

/-- A USD→EUR (reverse) rate dated 5 with value 1/2. -/
def rateReverse : FxRate := ⟨"USD", "EUR", 5, 1/2⟩

/-- An unrelated KES→USD rate dated 1. -/
def rateOther : FxRate := ⟨"KES", "USD", 1, 1⟩

/-- A candidate whose job order belongs to `company0` with a EUR cost. -/
def costEur : CandidateCost := ⟨1, 80, "EUR", 3, "Visa", none⟩

/-- A database holding only the unrelated rate `rateOther`. -/
def dbOtherRate : Db := ⟨[rateOther], [], [], []⟩

/-! Helper lemmas about `latestByDate` (the model of
`.order_by('-rate_date').first()`). -/

theorem laterRate_eq_or (b x : FxRate) : laterRate b x = b ∨ laterRate b x = x := by
  unfold laterRate
  split
  · exact Or.inr rfl
  · exact Or.inl rfl

theorem rateDate_le_laterRate_left (b x : FxRate) :
    b.rateDate ≤ (laterRate b x).rateDate := by
  unfold laterRate
  split
  · exact le_of_lt (by assumption)
  · exact le_refl _

theorem rateDate_le_laterRate_right (b x : FxRate) :
    x.rateDate ≤ (laterRate b x).rateDate := by
  unfold laterRate
  split
  · exact le_refl _
  · exact le_of_not_lt (by assumption)

theorem foldl_laterRate_mem (l : List FxRate) :
    ∀ b, l.foldl laterRate b = b ∨ l.foldl laterRate b ∈ l := by
  induction l with
  | nil => intro b; exact Or.inl rfl
  | cons x xs ih =>
    intro b
    rw [List.foldl_cons]
    rcases ih (laterRate b x) with h | h
    · rcases laterRate_eq_or b x with hb | hb
      · exact Or.inl (by rw [h, hb])
      · exact Or.inr (by rw [h, hb]; exact List.mem_cons_self x xs)
    · exact Or.inr (List.mem_cons_of_mem x h)

theorem le_foldl_laterRate (l : List FxRate) :
    ∀ b : FxRate, b.rateDate ≤ (l.foldl laterRate b).rateDate := by
  induction l with
  | nil => intro b; exact le_refl _
  | cons x xs ih =>
    intro b
    rw [List.foldl_cons]
    exact le_trans (rateDate_le_laterRate_left b x) (ih (laterRate b x))

theorem mem_le_foldl_laterRate (l : List FxRate) :
    ∀ (b x : FxRate), x ∈ l → x.rateDate ≤ (l.foldl laterRate b).rateDate := by
  induction l with
  | nil => intro b x hx; cases hx
  | cons y ys ih =>
    intro b x hx
    rw [List.foldl_cons]
    rcases List.mem_cons.mp hx with h | h
    · rw [h]
      exact le_trans (rateDate_le_laterRate_right b y) (le_foldl_laterRate ys _)
    · exact ih _ x h

theorem latestByDate_mem {l : List FxRate} {r : FxRate}
    (h : latestByDate l = some r) : r ∈ l := by
  cases l with
  | nil => simp [latestByDate] at h
  | cons x xs =>
    have h' : xs.foldl laterRate x = r := by simpa [latestByDate] using h
    rcases foldl_laterRate_mem xs x with h2 | h2
    · rw [← h', h2]; exact List.mem_cons_self x xs
    · rw [← h']; exact List.mem_cons_of_mem x h2

theorem latestByDate_ge {l : List FxRate} {r : FxRate}
    (h : latestByDate l = some r) : ∀ x ∈ l, x.rateDate ≤ r.rateDate := by
  cases l with
  | nil => simp [latestByDate] at h
  | cons y ys =>
    have h' : ys.foldl laterRate y = r := by simpa [latestByDate] using h
    intro x hx
    rw [← h']
    rcases List.mem_cons.mp hx with h2 | h2
    · rw [h2]; exact le_foldl_laterRate ys y
    · exact mem_le_foldl_laterRate ys y x h2

theorem latestByDate_eq_none {l : List FxRate} :
    latestByDate l = none ↔ l = [] := by
  cases l <;> simp [latestByDate]

/-- Everything `latestOnOrBefore` returns: membership, the directional pair,
the on-or-before bound, and maximality among matching rows. -/
theorem latestOnOrBefore_spec {rates : List FxRate} {f t : String} {d : ℤ}
    {r : FxRate} (h : latestOnOrBefore rates f t d = some r) :
    r ∈ rates ∧ r.fromCurrency = f ∧ r.toCurrency = t ∧ r.rateDate ≤ d ∧
    ∀ x ∈ rates, x.fromCurrency = f → x.toCurrency = t → x.rateDate ≤ d →
      x.rateDate ≤ r.rateDate := by
  unfold latestOnOrBefore at h
  have hmem := latestByDate_mem h
  have hge := latestByDate_ge h
  rw [List.mem_filter, decide_eq_true_eq] at hmem
  refine ⟨hmem.1, hmem.2.1, hmem.2.2.1, hmem.2.2.2, ?_⟩
  intro x hx hxf hxt hxd
  exact hge x (by rw [List.mem_filter, decide_eq_true_eq]; exact ⟨hx, hxf, hxt, hxd⟩)

/-- C9 counterexample: identity conversion in the strict-mode converter does
NOT round to 2 decimal places.  At amount 1.005 (= 201/200) it returns the
amount quantized to 4 decimal places, i.e. 1.005 itself, whereas the claim
demands `round(amount, 2) = 1.00`. -/
theorem identity_strict_not_two_dp :
    convert_currency [] (201/200) "USD" "USD" 0 = .ok (201/200) ∧
    quantize 2 ((201 : ℚ)/200) = 1 ∧ ((201 : ℚ)/200) ≠ 1 := by
  refine ⟨?_, by norm_num [quantize, roundHalfEven], by norm_num⟩
  unfold convert_currency get_fx_rate
  rw [if_pos rfl]
  exact congrArg Except.ok (by norm_num [quantize, roundHalfEven])

/-- C9 (amended): identity conversion performs no FX rate lookup in either
converter (the result is the same for every rate table); the lenient
reporting converter returns the amount rounded to 2 decimal places, while
the strict ledger converter returns the amount quantized to 4 decimal
places. -/
theorem identity_conversion_both_modes :
    ∀ (rates : List FxRate) (amount : ℚ) (x : String) (date : ℤ),
      Reports.convert_currency rates amount x x date = quantize 2 amount ∧
      convert_currency rates amount x x date = .ok (quantize 4 amount) := by
  intro rates amount x date
  constructor
  · unfold Reports.convert_currency
    rw [if_pos (Or.inr rfl)]
  · unfold convert_currency get_fx_rate
    rw [if_pos rfl]
    simp [mul_one]

/-- C2 counterexample: the strict-mode converter DOES use a rate dated after
the requested date.  The store holds a single EUR→USD rate dated day 20;
a conversion requested as of day 10 finds no rate dated exactly day 10 and
falls back to the latest rate of any date, returning the day-20 rate. -/
theorem fx_future_rate_used :
    rateFuture.rateDate = 20 ∧ (10 : ℤ) < 20 ∧
    get_fx_rate [rateFuture] "EUR" "USD" 10 = .ok rateFuture.rate ∧
    convert_currency [rateFuture] 100 "EUR" "USD" 10 = .ok 200 := by
  refine ⟨rfl, by decide, rfl, ?_⟩
  have h0 : get_fx_rate [rateFuture] "EUR" "USD" 10 = .ok 2 := rfl
  unfold convert_currency
  simp only [h0]
  exact congrArg Except.ok (by norm_num [quantize, roundHalfEven])

/-- C2 (amended): the lenient reporting converter selects the single most
recent direct rate dated on or before the requested date (never a later
one); the strict ledger converter instead first looks for a rate dated
exactly on the requested date and otherwise falls back to the latest rate of
any date for the pair — possibly a rate dated after the requested date. -/
theorem fx_rate_selection :
    (∀ (rates : List FxRate) (amount : ℚ) (f t : String) (d : ℤ) (r : FxRate),
      f ≠ t →
      latestOnOrBefore rates f t d = some r →
      Reports.convert_currency rates amount f t d = quantize 2 (amount * r.rate) ∧
      r ∈ rates ∧ r.fromCurrency = f ∧ r.toCurrency = t ∧ r.rateDate ≤ d ∧
      (∀ x ∈ rates, x.fromCurrency = f → x.toCurrency = t → x.rateDate ≤ d →
        x.rateDate ≤ r.rateDate)) ∧
    (∀ (rates : List FxRate) (f t : String) (d : ℤ) (r : FxRate),
      f ≠ t →
      (∀ x ∈ rates, x.fromCurrency = f → x.toCurrency = t → x.rateDate ≠ d) →
      latestByDate (rates.filter fun x =>
        x.fromCurrency = f ∧ x.toCurrency = t) = some r →
      get_fx_rate rates f t d = .ok r.rate ∧ r ∈ rates ∧
      r.fromCurrency = f ∧ r.toCurrency = t ∧
      (∀ x ∈ rates, x.fromCurrency = f → x.toCurrency = t →
        x.rateDate ≤ r.rateDate)) := by
  constructor
  · intro rates amount f t d r hft h
    have hs := latestOnOrBefore_spec h
    refine ⟨?_, hs.1, hs.2.1, hs.2.2.1, hs.2.2.2.1, hs.2.2.2.2⟩
    by_cases ha : amount = 0
    · subst ha
      unfold Reports.convert_currency
      rw [if_pos (Or.inl rfl), zero_mul]
    · unfold Reports.convert_currency
      rw [if_neg (by push_neg; exact ⟨ha, hft⟩), h]
  · intro rates f t d r hft hnoexact hlatest
    have hmem := latestByDate_mem hlatest
    rw [List.mem_filter, decide_eq_true_eq] at hmem
    have hge := latestByDate_ge hlatest
    refine ⟨?_, hmem.1, hmem.2.1, hmem.2.2, ?_⟩
    · unfold get_fx_rate
      rw [if_neg hft]
      have hnil : (rates.filter fun x =>
          x.fromCurrency = f ∧ x.toCurrency = t ∧ x.rateDate = d) = [] := by
        rw [List.filter_eq_nil_iff]
        intro a ha
        simp only [decide_eq_true_eq, not_and]
        intro h1 h2 h3
        exact hnoexact a ha h1 h2 h3
      rw [hnil, hlatest]
    · intro x hx h1 h2
      exact hge x (by rw [List.mem_filter, decide_eq_true_eq]; exact ⟨hx, h1, h2⟩)

/-- C2 witness: concrete instantiations of both halves of
`fx_rate_selection`.  Lenient: of direct rates dated 3, 5 and 20, a day-10
query uses the day-5 rate (value 2), giving 200.  Strict with no exact-date
match: of rates dated 3 and 20, a day-10 query returns the day-20 rate. -/
theorem fx_rate_selection_witness :
    Reports.convert_currency
      [⟨"EUR", "USD", 3, 3/2⟩, ⟨"EUR", "USD", 5, 2⟩, ⟨"EUR", "USD", 20, 7⟩]
      100 "EUR" "USD" 10 = 200 ∧
    get_fx_rate [⟨"EUR", "USD", 3, 3/2⟩, ⟨"EUR", "USD", 20, 7⟩]
      "EUR" "USD" 10 = .ok 7 := by
  constructor
  · have h := (fx_rate_selection.1
      [⟨"EUR", "USD", 3, 3/2⟩, ⟨"EUR", "USD", 5, 2⟩, ⟨"EUR", "USD", 20, 7⟩]
      100 "EUR" "USD" 10 ⟨"EUR", "USD", 5, 2⟩ (by decide) (by rfl)).1
    exact h.trans (by norm_num [quantize, roundHalfEven])
  · have h := (fx_rate_selection.2
      [⟨"EUR", "USD", 3, 3/2⟩, ⟨"EUR", "USD", 20, 7⟩]
      "EUR" "USD" 10 ⟨"EUR", "USD", 20, 7⟩ (by decide) (by decide) (by rfl)).1
    exact h

/-- C3 counterexample: with only a reverse USD→EUR rate of 1/2 dated on or
before the requested date, the claim demands both converters return
`round(100 / (1/2), 2) = 200` for a EUR→USD conversion; the strict-mode
converter instead raises the missing-FX-rate `ValidationError` — it has no
reverse-rate fallback at all. -/
theorem reverse_rate_ignored_strict :
    rateReverse.rateDate ≤ 10 ∧ rateReverse.rate = 1/2 ∧
    convert_currency [rateReverse] 100 "EUR" "USD" 10 =
      .error .missingFxRate ∧
    quantize 2 ((100 : ℚ) / (1/2)) = 200 := by
  refine ⟨by decide, rfl, rfl, by norm_num [quantize, roundHalfEven]⟩

/-- C3 (amended): only the lenient reporting converter falls back to the
reverse rate: when no direct B→A rate exists at all and the most recent
reverse A→B rate on or before the date is `r ≠ 0`, it returns
`round(amount / r, 2)`; the strict ledger converter raises the
missing-FX-rate error on the same inputs. -/
theorem reverse_rate_lenient_only :
    ∀ (rates : List FxRate) (amount : ℚ) (b a : String) (d : ℤ) (r : FxRate),
      b ≠ a →
      (∀ x ∈ rates, ¬(x.fromCurrency = b ∧ x.toCurrency = a)) →
      latestOnOrBefore rates a b d = some r →
      r.rate ≠ 0 →
      Reports.convert_currency rates amount b a d =
        quantize 2 (amount / r.rate) ∧
      get_fx_rate rates b a d = .error .missingFxRate := by
  intro rates amount b a d r hba hnodirect hrev hr0
  have hpairnil : (rates.filter fun x =>
      x.fromCurrency = b ∧ x.toCurrency = a) = [] := by
    rw [List.filter_eq_nil_iff]
    intro x hx
    simp only [decide_eq_true_eq]
    exact hnodirect x hx
  constructor
  · by_cases ha : amount = 0
    · subst ha
      unfold Reports.convert_currency
      rw [if_pos (Or.inl rfl), zero_div]
    · unfold Reports.convert_currency
      rw [if_neg (by push_neg; exact ⟨ha, hba⟩)]
      have hdir : latestOnOrBefore rates b a d = none := by
        unfold latestOnOrBefore
        rw [latestByDate_eq_none, List.filter_eq_nil_iff]
        intro x hx
        simp only [decide_eq_true_eq, not_and]
        intro h1 h2 _
        exact hnodirect x hx ⟨h1, h2⟩
      simp only [hdir, hrev]
      rw [if_neg hr0]
  · unfold get_fx_rate
    rw [if_neg hba]
    have hexactnil : (rates.filter fun x =>
        x.fromCurrency = b ∧ x.toCurrency = a ∧ x.rateDate = d) = [] := by
      rw [List.filter_eq_nil_iff]
      intro x hx
      simp only [decide_eq_true_eq, not_and]
      intro h1 h2 _
      exact hnodirect x hx ⟨h1, h2⟩
    rw [hexactnil, hpairnil]
    rfl

/-- C3 witness: `reverse_rate_lenient_only` at the concrete store holding
only the USD→EUR rate 1/2 dated 5: the lenient converter returns 200 for
100 EUR→USD as of day 10, the strict converter raises. -/
theorem reverse_rate_lenient_only_witness :
    Reports.convert_currency [rateReverse] 100 "EUR" "USD" 10 = 200 ∧
    get_fx_rate [rateReverse] "EUR" "USD" 10 = .error .missingFxRate := by
  have h := reverse_rate_lenient_only [rateReverse] 100 "EUR" "USD" 10
    rateReverse (by decide) (by decide) (by rfl)
    (by norm_num [rateReverse])
  exact ⟨h.1.trans (by norm_num [rateReverse, quantize, roundHalfEven]), h.2⟩

/-! Helper lemmas about the ledger poster and the strict converter. -/

/-- `post_journal` on balanced lines: the created journal and the updated
database. -/
theorem post_journal_ok {db : Db} {company : Company} {description : String}
    {lines : List JournalLine}
    (h : ¬ 1/100 < |totalDebit lines - totalCredit lines|) :
    post_journal db company description lines =
      (.ok ⟨company.code, description, lines⟩,
       { db with journals :=
          db.journals ++ [⟨company.code, description, lines⟩] }) := by
  unfold post_journal
  rw [if_neg h]

/-- `post_journal` on unbalanced lines: the `ValidationError` and the
untouched database. -/
theorem post_journal_error {db : Db} {company : Company}
    {description : String} {lines : List JournalLine}
    (h : 1/100 < |totalDebit lines - totalCredit lines|) :
    post_journal db company description lines = (.error .unbalanced, db) := by
  unfold post_journal
  rw [if_pos h]

/-- Strict identity conversion: rate 1, quantized to 4 decimal places. -/
theorem convert_currency_identity (rates : List FxRate) (amount : ℚ)
    (c : String) (d : ℤ) :
    convert_currency rates amount c c d = .ok (quantize 4 amount) := by
  unfold convert_currency get_fx_rate
  rw [if_pos rfl]
  simp [mul_one]

/-- C1: `post_journal` raises the unbalanced-journal error and writes
nothing when the debit/credit difference exceeds 0.01; otherwise it creates
exactly one journal holding one line per input line in input order and
returns it; and every journal it persists satisfies the balance invariant
`|sum(debit) - sum(credit)| ≤ 0.01`. -/
theorem post_journal_correct :
    ∀ (db : Db) (company : Company) (description : String)
      (lines : List JournalLine),
      (1/100 < |totalDebit lines - totalCredit lines| →
        post_journal db company description lines = (.error .unbalanced, db)) ∧
      (|totalDebit lines - totalCredit lines| ≤ 1/100 →
        ∃ j, post_journal db company description lines =
            (.ok j, { db with journals := db.journals ++ [j] }) ∧
          j.company = company.code ∧ j.description = description ∧
          j.lines = lines) ∧
      (∀ (j : Journal) (db' : Db),
        post_journal db company description lines = (.ok j, db') →
        |totalDebit j.lines - totalCredit j.lines| ≤ 1/100 ∧
        db'.journals = db.journals ++ [j]) := by
  intro db company description lines
  refine ⟨fun h => post_journal_error h, fun h => ?_, fun j db' h => ?_⟩
  · exact ⟨_, post_journal_ok (not_lt.mpr h), rfl, rfl, rfl⟩
  · unfold post_journal at h
    split at h
    · exact absurd h (by simp)
    · next hle =>
        simp only [Prod.mk.injEq, Except.ok.injEq] at h
        obtain ⟨h1, h2⟩ := h
        subst h1
        subst h2
        exact ⟨not_lt.mp hle, rfl⟩

/-- C1 witness: a balanced 5/5 pair of lines posts one journal with exactly
those lines; a lone 5-debit line is rejected with the unbalanced error and
the database is untouched. -/
theorem post_journal_correct_witness :
    (∃ j, post_journal db0 company0 ("Opening") lines0 =
        (.ok j, { db0 with journals := db0.journals ++ [j] }) ∧
      j.company = company0.code ∧ j.description = "Opening" ∧
      j.lines = lines0) ∧
    post_journal db0 company0 ("Bad") [⟨"A1", 5, 0, "d1"⟩] =
      (.error .unbalanced, db0) := by
  constructor
  · exact (post_journal_correct db0 company0 ("Opening") lines0).2.1
      (by norm_num [totalDebit, totalCredit, lines0])
  · exact (post_journal_correct db0 company0 ("Bad") [⟨"A1", 5, 0, "d1"⟩]).1
      (by norm_num [totalDebit, totalCredit])

/-- C6: when the cost currency differs from the company base currency and
the store holds neither a direct nor a reverse rate for the pair, strict-mode
conversion fails, `post_wip_cost_journal` raises the missing-FX-rate
`ValidationError`, and the database — in particular the journal table — is
returned unchanged. -/
theorem missing_rate_blocks_posting :
    ∀ (db : Db) (candidate : Candidate) (cost : CandidateCost),
      cost.currency ≠ candidate.job_order.company.base_currency →
      (∀ x ∈ db.fxRates, ¬(x.fromCurrency = cost.currency ∧
        x.toCurrency = candidate.job_order.company.base_currency)) →
      (∀ x ∈ db.fxRates,
        ¬(x.fromCurrency = candidate.job_order.company.base_currency ∧
          x.toCurrency = cost.currency)) →
      post_wip_cost_journal db candidate cost = (.error .missingFxRate, db) ∧
      (post_wip_cost_journal db candidate cost).2.journals = db.journals := by
  intro db candidate cost hne hnodir _
  have hfx : get_fx_rate db.fxRates cost.currency
      candidate.job_order.company.base_currency cost.date_incurred =
      .error .missingFxRate := by
    unfold get_fx_rate
    rw [if_neg hne]
    have h1 : (db.fxRates.filter fun x => x.fromCurrency = cost.currency ∧
        x.toCurrency = candidate.job_order.company.base_currency ∧
        x.rateDate = cost.date_incurred) = [] := by
      rw [List.filter_eq_nil_iff]
      intro x hx
      simp only [decide_eq_true_eq, not_and]
      intro a b _
      exact hnodir x hx ⟨a, b⟩
    have h2 : (db.fxRates.filter fun x => x.fromCurrency = cost.currency ∧
        x.toCurrency = candidate.job_order.company.base_currency) = [] := by
      rw [List.filter_eq_nil_iff]
      intro x hx
      simp only [decide_eq_true_eq, not_and]
      intro a b
      exact hnodir x hx ⟨a, b⟩
    rw [h1, h2]
    rfl
  have hconv : convert_currency db.fxRates cost.amount cost.currency
      candidate.job_order.company.base_currency cost.date_incurred =
      .error .missingFxRate := by
    unfold convert_currency
    simp only [hfx]
  have hmain : post_wip_cost_journal db candidate cost =
      (.error .missingFxRate, db) := by
    unfold post_wip_cost_journal atomic
    simp only [hconv]
  exact ⟨hmain, by rw [hmain]⟩

/-- C6 witness: a EUR cost against a USD-base company whose store holds only
a KES→USD rate — no direct or reverse EUR/USD rate — fails with the
missing-FX-rate error and leaves the database untouched. -/
theorem missing_rate_blocks_posting_witness :
    post_wip_cost_journal dbOtherRate candA costEur =
      (.error .missingFxRate, dbOtherRate) :=
  (missing_rate_blocks_posting dbOtherRate candA costEur (by decide)
    (by decide) (by decide)).1

/-- C7: when the invoice total converts to `T` and the (nonnegative) tax to
`X`, `post_invoice_journal` posts exactly one journal debiting Accounts
Receivable with `T`, crediting Revenue with `T - X`, and carrying a Tax
Payable credit line of `X` exactly when `X > 0`; the journal balances. -/
theorem invoice_journal_lines :
    ∀ (db : Db) (today : ℤ) (invoice : Invoice) (T X : ℚ),
      convert_currency db.fxRates invoice.total_amount invoice.currency
        invoice.company.base_currency today = .ok T →
      convert_currency db.fxRates invoice.tax_amount invoice.currency
        invoice.company.base_currency today = .ok X →
      0 ≤ X →
      ∃ j, post_invoice_journal db today invoice =
          (.ok j, { db with journals := db.journals ++ [j] }) ∧
        j.lines =
          [⟨invoice.company.chart_of_accounts.accounts_receivable, T, 0,
            "Invoice " ++ invoice.invoice_number⟩,
           ⟨invoice.company.chart_of_accounts.revenue_account, 0, T - X,
            "Invoice " ++ invoice.invoice_number ++ " - Service"⟩] ++
          (if 0 < X then
            [⟨invoice.company.chart_of_accounts.tax_payable, 0, X,
              "VAT/GST Output Tax - " ++ invoice.invoice_number⟩]
           else []) ∧
        totalDebit j.lines = totalCredit j.lines := by
  intro db today invoice T X hT hX hX0
  have hbal : totalDebit
      ([⟨invoice.company.chart_of_accounts.accounts_receivable, T, 0,
         "Invoice " ++ invoice.invoice_number⟩,
        ⟨invoice.company.chart_of_accounts.revenue_account, 0, T - X,
         "Invoice " ++ invoice.invoice_number ++ " - Service"⟩] ++
       (if 0 < X then
         [⟨invoice.company.chart_of_accounts.tax_payable, 0, X,
           "VAT/GST Output Tax - " ++ invoice.invoice_number⟩]
        else [])) = totalCredit
      ([⟨invoice.company.chart_of_accounts.accounts_receivable, T, 0,
         "Invoice " ++ invoice.invoice_number⟩,
        ⟨invoice.company.chart_of_accounts.revenue_account, 0, T - X,
         "Invoice " ++ invoice.invoice_number ++ " - Service"⟩] ++
       (if 0 < X then
         [⟨invoice.company.chart_of_accounts.tax_payable, 0, X,
           "VAT/GST Output Tax - " ++ invoice.invoice_number⟩]
        else [])) := by
    by_cases hpos : 0 < X
    · simp only [if_pos hpos, totalDebit, totalCredit, List.map_append,
        List.map_cons, List.map_nil, List.sum_append, List.sum_cons,
        List.sum_nil]
      ring
    · have hzero : X = 0 := le_antisymm (not_lt.mp hpos) hX0
      subst hzero
      simp only [if_neg hpos, totalDebit, totalCredit, List.map_append,
        List.map_cons, List.map_nil, List.sum_append, List.sum_cons,
        List.sum_nil]
      ring
  have hne : ¬ 1/100 < |totalDebit
      ([⟨invoice.company.chart_of_accounts.accounts_receivable, T, 0,
         "Invoice " ++ invoice.invoice_number⟩,
        ⟨invoice.company.chart_of_accounts.revenue_account, 0, T - X,
         "Invoice " ++ invoice.invoice_number ++ " - Service"⟩] ++
       (if 0 < X then
         [⟨invoice.company.chart_of_accounts.tax_payable, 0, X,
           "VAT/GST Output Tax - " ++ invoice.invoice_number⟩]
        else [])) - totalCredit
      ([⟨invoice.company.chart_of_accounts.accounts_receivable, T, 0,
         "Invoice " ++ invoice.invoice_number⟩,
        ⟨invoice.company.chart_of_accounts.revenue_account, 0, T - X,
         "Invoice " ++ invoice.invoice_number ++ " - Service"⟩] ++
       (if 0 < X then
         [⟨invoice.company.chart_of_accounts.tax_payable, 0, X,
           "VAT/GST Output Tax - " ++ invoice.invoice_number⟩]
        else []))| := by
    rw [hbal, sub_self, abs_zero]
    norm_num
  refine ⟨⟨invoice.company.code,
    "Invoice Posted: " ++ invoice.invoice_number, _⟩, ?_, rfl, hbal⟩
  unfold post_invoice_journal atomic
  simp only [hT, hX]
  rw [post_journal_ok hne]

/-- C7 witness: the spec's scenario — invoice total 1000 USD, tax 180 USD,
USD-base company — posts AR debit 1000, Revenue credit 820 and Tax Payable
credit 180. -/
theorem invoice_journal_lines_witness :
    ∃ j, post_invoice_journal db0 0 invoice1000 =
        (.ok j, { db0 with journals := db0.journals ++ [j] }) ∧
      j.lines = [⟨"AR", 1000, 0, "Invoice INV-1"⟩,
        ⟨"REV", 0, 820, "Invoice INV-1 - Service"⟩,
        ⟨"TAX", 0, 180, "VAT/GST Output Tax - INV-1"⟩] := by
  have hT : convert_currency db0.fxRates invoice1000.total_amount
      invoice1000.currency invoice1000.company.base_currency 0 =
      .ok 1000 := by
    show convert_currency [] 1000 "USD" "USD" 0 = .ok 1000
    rw [convert_currency_identity]
    exact congrArg Except.ok (by norm_num [quantize, roundHalfEven])
  have hX : convert_currency db0.fxRates invoice1000.tax_amount
      invoice1000.currency invoice1000.company.base_currency 0 =
      .ok 180 := by
    show convert_currency [] 180 "USD" "USD" 0 = .ok 180
    rw [convert_currency_identity]
    exact congrArg Except.ok (by norm_num [quantize, roundHalfEven])
  obtain ⟨j, h1, h2, _⟩ :=
    invoice_journal_lines db0 0 invoice1000 1000 180 hT hX (by norm_num)
  refine ⟨j, h1, ?_⟩
  rw [h2]
  norm_num [invoice1000, company0, chart0]
  exact ⟨rfl, rfl, rfl⟩

/-- C10: a receipt with no linked invoice never yields a journal:
`post_receipt_journal` computes the fallback original-AR amount from the
receipt's own amount, but then dereferences the absent invoice's currency,
so the call fails before any journal is posted and the database is returned
unchanged. -/
theorem receipt_without_invoice_never_posts :
    ∀ (db : Db) (today : ℤ) (receipt : Receipt),
      receipt.invoice = none →
      ∃ e, post_receipt_journal db today receipt = (.error e, db) := by
  intro db today receipt h
  unfold post_receipt_journal
  cases hc : convert_currency db.fxRates receipt.amount receipt.currency
      receipt.company.base_currency today with
  | error e => exact ⟨e, by simp only [hc]⟩
  | ok a => exact ⟨.noneAttr, by simp only [hc, h]⟩

/-- C10 witness: the concrete invoice-less receipt fails (with the
`AttributeError` of reading `None.currency`) and posts nothing. -/
theorem receipt_without_invoice_never_posts_witness :
    ∃ e, post_receipt_journal db0 0 receiptNoInvoice = (.error e, db0) :=
  receipt_without_invoice_never_posts db0 0 receiptNoInvoice rfl

/-- C8: evaluation at the failing input.  A 110 USD receipt against a
100 USD invoice in a USD-base company has residual +10, so the plug line is
emitted with 10 on the debit side exactly as the claim describes — but then
total debit is 120 against total credit 100, `post_journal` raises the
unbalanced-journal `ValidationError`, and no journal is created.  The claim's
final conjunct ("the resulting journal is balanced") is therefore false:
whenever the plug line is emitted the journal is unbalanced by twice the
residual and is never persisted. -/
theorem receipt_fx_plug_unbalanced :
    post_receipt_journal db0 0 receiptOver = (.error .unbalanced, db0) ∧
    (post_receipt_journal db0 0 receiptOver).2.journals = [] := by
  have h : post_receipt_journal db0 0 receiptOver =
      (.error .unbalanced, db0) := by
    norm_num [post_receipt_journal, convert_currency, get_fx_rate, quantize,
      roundHalfEven, post_journal, totalDebit, totalCredit, db0, receiptOver,
      invoice100, company0, chart0]
  exact ⟨h, by rw [h]; rfl⟩

/-- `saveCandidate` touches only the candidate table. -/
theorem saveCandidate_fxRates (db : Db) (c : Candidate) :
    (saveCandidate db c).fxRates = db.fxRates := rfl

/-- `saveCandidate` leaves the journal table unchanged. -/
theorem saveCandidate_journals (db : Db) (c : Candidate) :
    (saveCandidate db c).journals = db.journals := rfl

/-- Success shape of `post_deployment_journal` on a DEPLOYED candidate whose
cost sum and fee both convert: the four-line revenue recognition journal. -/
theorem post_deployment_ok {db : Db} {today : ℤ} {candidate : Candidate}
    {C F : ℚ}
    (hstage : candidate.current_stage = "DEPLOYED")
    (hC : sumWip db.fxRates candidate.job_order.company.base_currency 0
      candidate.costs = .ok C)
    (hF : convert_currency db.fxRates candidate.job_order.agreed_fee
      candidate.job_order.currency candidate.job_order.company.base_currency
      today = .ok F) :
    post_deployment_journal db today candidate =
      (.ok (some ⟨candidate.job_order.company.code,
        "Deployment Revenue Recognition - " ++ candidate.full_name,
        [⟨candidate.job_order.company.chart_of_accounts.cogs_account, C, 0,
          "COGS - Deployment " ++ candidate.full_name⟩,
         ⟨candidate.job_order.company.chart_of_accounts.wip_account, 0, C,
          "WIP Cleared - " ++ candidate.passport_number⟩,
         ⟨candidate.job_order.company.chart_of_accounts.revenue_account, 0, F,
          "Revenue - Placement " ++ candidate.full_name⟩,
         ⟨candidate.job_order.company.chart_of_accounts.accounts_receivable,
          F, 0, "AR - Placement Fee " ++ candidate.passport_number⟩]⟩),
       { db with journals := db.journals ++
          [⟨candidate.job_order.company.code,
            "Deployment Revenue Recognition - " ++ candidate.full_name,
            [⟨candidate.job_order.company.chart_of_accounts.cogs_account, C, 0,
              "COGS - Deployment " ++ candidate.full_name⟩,
             ⟨candidate.job_order.company.chart_of_accounts.wip_account, 0, C,
              "WIP Cleared - " ++ candidate.passport_number⟩,
             ⟨candidate.job_order.company.chart_of_accounts.revenue_account,
              0, F, "Revenue - Placement " ++ candidate.full_name⟩,
             ⟨candidate.job_order.company.chart_of_accounts.accounts_receivable,
              F, 0,
              "AR - Placement Fee " ++ candidate.passport_number⟩]⟩] }) := by
  have hne : ¬ 1/100 <
      |totalDebit
        [⟨candidate.job_order.company.chart_of_accounts.cogs_account, C, 0,
          "COGS - Deployment " ++ candidate.full_name⟩,
         ⟨candidate.job_order.company.chart_of_accounts.wip_account, 0, C,
          "WIP Cleared - " ++ candidate.passport_number⟩,
         ⟨candidate.job_order.company.chart_of_accounts.revenue_account, 0, F,
          "Revenue - Placement " ++ candidate.full_name⟩,
         ⟨candidate.job_order.company.chart_of_accounts.accounts_receivable,
          F, 0, "AR - Placement Fee " ++ candidate.passport_number⟩] -
       totalCredit
        [⟨candidate.job_order.company.chart_of_accounts.cogs_account, C, 0,
          "COGS - Deployment " ++ candidate.full_name⟩,
         ⟨candidate.job_order.company.chart_of_accounts.wip_account, 0, C,
          "WIP Cleared - " ++ candidate.passport_number⟩,
         ⟨candidate.job_order.company.chart_of_accounts.revenue_account, 0, F,
          "Revenue - Placement " ++ candidate.full_name⟩,
         ⟨candidate.job_order.company.chart_of_accounts.accounts_receivable,
          F, 0, "AR - Placement Fee " ++ candidate.passport_number⟩]| := by
    have hzero : totalDebit
        [⟨candidate.job_order.company.chart_of_accounts.cogs_account, C, 0,
          "COGS - Deployment " ++ candidate.full_name⟩,
         ⟨candidate.job_order.company.chart_of_accounts.wip_account, 0, C,
          "WIP Cleared - " ++ candidate.passport_number⟩,
         ⟨candidate.job_order.company.chart_of_accounts.revenue_account, 0, F,
          "Revenue - Placement " ++ candidate.full_name⟩,
         ⟨candidate.job_order.company.chart_of_accounts.accounts_receivable,
          F, 0, "AR - Placement Fee " ++ candidate.passport_number⟩] -
        totalCredit
        [⟨candidate.job_order.company.chart_of_accounts.cogs_account, C, 0,
          "COGS - Deployment " ++ candidate.full_name⟩,
         ⟨candidate.job_order.company.chart_of_accounts.wip_account, 0, C,
          "WIP Cleared - " ++ candidate.passport_number⟩,
         ⟨candidate.job_order.company.chart_of_accounts.revenue_account, 0, F,
          "Revenue - Placement " ++ candidate.full_name⟩,
         ⟨candidate.job_order.company.chart_of_accounts.accounts_receivable,
          F, 0, "AR - Placement Fee " ++ candidate.passport_number⟩] = 0 := by
      simp only [totalDebit, totalCredit, List.map_cons, List.map_nil,
        List.sum_cons, List.sum_nil]
      ring
    rw [hzero, abs_zero]
    norm_num
  unfold post_deployment_journal atomic
  simp only [if_neg (not_not_intro hstage), hC, hF]
  rw [post_journal_ok hne]

/-- C5: a candidate's first transition into DEPLOYED (via the bulk stage
mover) posts exactly one journal of four lines — COGS debit `C`, WIP credit
`C`, Revenue credit `F`, Accounts Receivable debit `F`, where `C` is the
strict-mode converted cost total and `F` the converted agreed fee — and that
journal balances. -/
theorem deployment_journal_lines :
    ∀ (db : Db) (today : ℤ) (cand : Candidate) (C F : ℚ),
      db.candidates = [cand] →
      cand.current_stage ≠ "DEPLOYED" →
      sumWip db.fxRates cand.job_order.company.base_currency 0 cand.costs =
        .ok C →
      convert_currency db.fxRates cand.job_order.agreed_fee
        cand.job_order.currency cand.job_order.company.base_currency today =
        .ok F →
      ∃ (j : Journal) (db' : Db),
        bulk_move_stage db today [cand.id] "DEPLOYED" = (.ok ⟨1, 1⟩, db') ∧
        db'.journals = db.journals ++ [j] ∧
        j.lines =
          [⟨cand.job_order.company.chart_of_accounts.cogs_account, C, 0,
            "COGS - Deployment " ++ cand.full_name⟩,
           ⟨cand.job_order.company.chart_of_accounts.wip_account, 0, C,
            "WIP Cleared - " ++ cand.passport_number⟩,
           ⟨cand.job_order.company.chart_of_accounts.revenue_account, 0, F,
            "Revenue - Placement " ++ cand.full_name⟩,
           ⟨cand.job_order.company.chart_of_accounts.accounts_receivable, F,
            0, "AR - Placement Fee " ++ cand.passport_number⟩] ∧
        totalDebit j.lines = totalCredit j.lines := by
  intro db today cand C F hdb hstage hC hF
  have hfetched : (db.candidates.filter fun c =>
      ([cand.id]).contains c.id) = [cand] := by
    rw [hdb]
    simp
  have hstage' : (movedCandidate today ("DEPLOYED") cand).current_stage =
      "DEPLOYED" := rfl
  have hpost := @post_deployment_ok
    (saveCandidate db (movedCandidate today ("DEPLOYED") cand)) today
    (movedCandidate today ("DEPLOYED") cand) C F hstage' hC hF
  have hmain : bulk_move_stage db today [cand.id] "DEPLOYED" =
      (.ok ⟨1, 1⟩,
       (post_deployment_journal
         (saveCandidate db (movedCandidate today ("DEPLOYED") cand)) today
         (movedCandidate today ("DEPLOYED") cand)).2) := by
    unfold bulk_move_stage atomic
    simp only [hfetched, bulkMoveStageGo, true_and, if_pos hstage, hpost]
    rfl
  refine ⟨⟨cand.job_order.company.code,
    "Deployment Revenue Recognition - " ++ cand.full_name,
    [⟨cand.job_order.company.chart_of_accounts.cogs_account, C, 0,
      "COGS - Deployment " ++ cand.full_name⟩,
     ⟨cand.job_order.company.chart_of_accounts.wip_account, 0, C,
      "WIP Cleared - " ++ cand.passport_number⟩,
     ⟨cand.job_order.company.chart_of_accounts.revenue_account, 0, F,
      "Revenue - Placement " ++ cand.full_name⟩,
     ⟨cand.job_order.company.chart_of_accounts.accounts_receivable, F, 0,
      "AR - Placement Fee " ++ cand.passport_number⟩]⟩,
    (post_deployment_journal
      (saveCandidate db (movedCandidate today ("DEPLOYED") cand)) today
      (movedCandidate today ("DEPLOYED") cand)).2,
    hmain, ?_, rfl, ?_⟩
  · rw [hpost]
    rfl
  · simp only [totalDebit, totalCredit, List.map_cons, List.map_nil,
      List.sum_cons, List.sum_nil]
    ring

/-- C5 witness: deploying the concrete TICKET-stage candidate with a 50 USD
cost and a 500 USD fee posts exactly one journal — COGS debit 50, WIP credit
50, Revenue credit 500, AR debit 500. -/
theorem deployment_journal_lines_witness :
    ∃ (j : Journal) (db' : Db),
      bulk_move_stage dbDeploy 7 [1] "DEPLOYED" = (.ok ⟨1, 1⟩, db') ∧
      db'.journals = dbDeploy.journals ++ [j] ∧
      j.lines = [⟨"COGS", 50, 0, "COGS - Deployment Asha"⟩,
        ⟨"WIP", 0, 50, "WIP Cleared - P1"⟩,
        ⟨"REV", 0, 500, "Revenue - Placement Asha"⟩,
        ⟨"AR", 500, 0, "AR - Placement Fee P1"⟩] := by
  have hC : sumWip dbDeploy.fxRates
      candTicket.job_order.company.base_currency 0 candTicket.costs =
      .ok 50 := by
    show sumWip [] ("USD") 0 [costMedical] = .ok 50
    norm_num [sumWip, convert_currency, get_fx_rate, quantize, roundHalfEven,
      costMedical]
  have hF : convert_currency dbDeploy.fxRates
      candTicket.job_order.agreed_fee candTicket.job_order.currency
      candTicket.job_order.company.base_currency 7 = .ok 500 := by
    show convert_currency [] 500 "USD" "USD" 7 = .ok 500
    rw [convert_currency_identity]
    exact congrArg Except.ok (by norm_num [quantize, roundHalfEven])
  obtain ⟨j, db', h1, h2, h3, _⟩ :=
    deployment_journal_lines dbDeploy 7 candTicket 50 500 rfl (by decide)
      hC hF
  refine ⟨j, db', h1, h2, ?_⟩
  rw [h3]
  norm_num [candTicket, job0, company0, chart0]
  exact ⟨rfl, rfl, rfl, rfl⟩

/-- `post_journal` never touches the candidate table. -/
theorem post_journal_snd_candidates (db : Db) (company : Company)
    (description : String) (lines : List JournalLine) :
    (post_journal db company description lines).2.candidates =
      db.candidates := by
  unfold post_journal
  split <;> rfl

/-- `atomic` preserves any candidate-table invariant of its body. -/
theorem atomic_snd_candidates {α : Type} (f : Db → Except LedgerError α × Db)
    (db : Db) (hf : (f db).2.candidates = db.candidates) :
    (atomic f db).2.candidates = db.candidates := by
  unfold atomic
  split
  · rfl
  · exact hf

/-- `post_wip_cost_journal` never touches the candidate table. -/
theorem post_wip_snd_candidates (db : Db) (candidate : Candidate)
    (cost : CandidateCost) :
    (post_wip_cost_journal db candidate cost).2.candidates =
      db.candidates := by
  unfold post_wip_cost_journal
  apply atomic_snd_candidates
  dsimp only
  split
  · rfl
  · apply post_journal_snd_candidates

/-- A missing candidate id anywhere in the work list makes the
`bulk_add_cost` loop fail: `Candidate.objects.get` raises on the missing id,
or an earlier item's posting failure propagates first. -/
theorem bulkAddCostGo_missing (template : CostTemplate) (badId : ℕ) :
    ∀ (ids : List ℕ) (db : Db) (n : ℕ), badId ∈ ids →
      (∀ c ∈ db.candidates, c.id ≠ badId) →
      ∃ e db2, bulkAddCostGo template db ids n = (.error e, db2) := by
  intro ids
  induction ids with
  | nil => intro db n h _; cases h
  | cons id rest ih =>
    intro db n hmem hno
    cases hfind : db.candidates.find? fun c => c.id = id with
    | none =>
      exact ⟨.candidateNotFound, db, by
        simp only [bulkAddCostGo, hfind]⟩
    | some cand =>
      have hcand := List.mem_of_find?_eq_some hfind
      have hcid : cand.id = id := by
        have := List.find?_some hfind
        simpa using this
      have hbad : badId ∈ rest := by
        rcases List.mem_cons.mp hmem with h | h
        · exact absurd (hcid.trans h.symm) (hno cand hcand)
        · exact h
      cases hpw : post_wip_cost_journal
          { db with candidateCosts :=
              db.candidateCosts ++ [mkCost template cand.id] }
          cand (mkCost template cand.id) with
      | mk res db2 =>
        cases res with
        | error e =>
          exact ⟨e, db2, by simp only [bulkAddCostGo, hfind, hpw]⟩
        | ok j =>
          have hsame : db2.candidates = db.candidates := by
            have hsnd := congrArg Prod.snd hpw
            dsimp only at hsnd
            rw [← hsnd]
            exact post_wip_snd_candidates _ cand (mkCost template cand.id)
          have hno2 : ∀ c ∈ db2.candidates, c.id ≠ badId := by
            rw [hsame]
            exact hno
          obtain ⟨e, db3, hgo⟩ := ih db2 (n + 1) hbad hno2
          exact ⟨e, db3, by simp only [bulkAddCostGo, hfind, hpw]; exact hgo⟩

/-- C4 counterexample: `bulk_add_cost` over candidate ids 1, 2, 3 where id 3
does not exist raises `Candidate.DoesNotExist` (no per-item recovery) and
the surrounding `transaction.atomic` rolls back the two sibling items, so
zero CandidateCost rows and zero journals remain — not `{created: 2}` with
two rows and two journals as the claim states. -/
theorem bulk_add_cost_rolls_back :
    bulk_add_cost dbTwoCandidates [1, 2, 3] template0 =
      (.error .candidateNotFound, dbTwoCandidates) ∧
    (bulk_add_cost dbTwoCandidates [1, 2, 3] template0).2.candidateCosts.length
      = 0 ∧
    (bulk_add_cost dbTwoCandidates [1, 2, 3] template0).2.journals.length
      = 0 := by
  have h : bulk_add_cost dbTwoCandidates [1, 2, 3] template0 =
      (.error .candidateNotFound, dbTwoCandidates) := by
    norm_num [bulk_add_cost, atomic, bulkAddCostGo, mkCost,
      post_wip_cost_journal, convert_currency, get_fx_rate, quantize,
      roundHalfEven, post_journal, totalDebit, totalCredit, dbTwoCandidates,
      candA, candB, template0, company0, chart0, job0, List.find?]
  exact ⟨h, by rw [h]; rfl, by rw [h]; rfl⟩

/-- C4 (amended): the bulk operators have no per-item error recovery — each
runs inside a single `transaction.atomic`.  For `bulk_add_cost`, an id in
the list matching no candidate makes the whole call fail and the atomic
wrapper roll back every sibling item's writes, returning the original
database.  `bulk_move_stage` never sees missing ids (its `filter` silently
drops them): with ids matching no candidate it succeeds with
`{updated: 0, total: len(ids)}` and no writes. -/
theorem bulk_failure_atomicity :
    (∀ (db : Db) (ids : List ℕ) (template : CostTemplate) (badId : ℕ),
      badId ∈ ids →
      (∀ c ∈ db.candidates, c.id ≠ badId) →
      ∃ e, bulk_add_cost db ids template = (.error e, db)) ∧
    (∀ (db : Db) (today : ℤ) (ids : List ℕ) (stage : String),
      (∀ c ∈ db.candidates, c.id ∉ ids) →
      bulk_move_stage db today ids stage = (.ok ⟨0, ids.length⟩, db)) := by
  constructor
  · intro db ids template badId hmem hno
    obtain ⟨e, db2, hgo⟩ := bulkAddCostGo_missing template badId ids db 0
      hmem hno
    exact ⟨e, by unfold bulk_add_cost atomic; simp only [hgo]⟩
  · intro db today ids stage h
    have hfetched : (db.candidates.filter fun c => ids.contains c.id) =
        [] := by
      rw [List.filter_eq_nil_iff]
      intro c hc
      intro habs
      exact h c hc (List.elem_iff.mp habs)
    unfold bulk_move_stage atomic
    simp only [hfetched, bulkMoveStageGo]

/-- C4 witness: both halves of `bulk_failure_atomicity` at concrete inputs —
the 3-id `bulk_add_cost` scenario fails and returns the original database,
and `bulk_move_stage` over an id matching no candidate returns
`{updated: 0, total: 1}` without error. -/
theorem bulk_failure_atomicity_witness :
    (∃ e, bulk_add_cost dbTwoCandidates [1, 2, 3] template0 =
      (.error e, dbTwoCandidates)) ∧
    bulk_move_stage dbTwoCandidates 0 [5] ("DEPLOYED") =
      (.ok ⟨0, 1⟩, dbTwoCandidates) := by
  constructor
  · exact bulk_failure_atomicity.1 dbTwoCandidates [1, 2, 3] template0 3
      (by decide) (by decide)
  · exact bulk_failure_atomicity.2 dbTwoCandidates 0 [5] ("DEPLOYED")
      (by decide)

end Mahuderp
